import Mathlib

/-!
Shallow embedding of `wf2md.py`, a single-pass converter from a
Workflowy plain-text outline export to one markdown file per top-level
note.  Strings are modelled as `List Char`; the pandas data frames are
modelled as lists of row records; the mutable parse variables of the
script become an explicit state record threaded through the line loop;
Python exceptions (`NameError`, `pandas.concat` on an empty list) become
an `Except` error value.
-/

set_option maxRecDepth 100000

namespace Wf2md

/-- Strings of the embedded program are lists of characters. -/
abbrev Str := List Char

/-- The whitespace characters removed by Python `str.strip()` (ASCII part). -/
def pyWs (c : Char) : Bool :=
  c = ' ' || c = '\t' || c = '\n' || c = '\r' || c = '\x0b' || c = '\x0c'

/-- Python `str.strip()`: remove leading and trailing whitespace. -/
def pyStrip (s : Str) : Str :=
  ((s.dropWhile pyWs).reverse.dropWhile pyWs).reverse

/-- Python `str.replace(a, b)` for single characters `a`, `b`. -/
def replaceChar (a b : Char) (s : Str) : Str :=
  s.map (fun c => if c = a then b else c)

/-- `FORBIDDEN_FN_CHARS = [':', '/']` from the script. -/
def FORBIDDEN_FN_CHARS : List Char := [ ':', '/']

/-- The `for char in FORBIDDEN_FN_CHARS: title = title.replace(char, '-')`
loop used both when parsing titles and in `get_safe_filename`. -/
def sanitizeTitle (t : Str) : Str :=
  FORBIDDEN_FN_CHARS.foldl (fun s c => replaceChar c '-' s) t

/-! ### MD5 (for `hashlib.md5(title.encode()).hexdigest()`)

A byte is a `Nat` below 256; 32-bit words are `Nat`s kept below `2 ^ 32`
by explicit `% 2 ^ 32` reductions. -/

/-- `2 ^ 32`, the word modulus of MD5. -/
def M32 : Nat := 4294967296

/-- Bitwise complement on 32-bit words. -/
def not32 (x : Nat) : Nat := 4294967295 ^^^ x

/-- Left-rotation of a 32-bit word by `n` (`0 < n < 32`) bits. -/
def rotl32 (x n : Nat) : Nat := ((x <<< n) % M32) ||| (x >>> (32 - n))

/-- The 64 MD5 sine-derived constants (RFC 1321 table `T`). -/
def md5K : List Nat :=
  [ 0xd76aa478, 0xe8c7b756, 0x242070db, 0xc1bdceee,
    0xf57c0faf, 0x4787c62a, 0xa8304613, 0xfd469501,
    0x698098d8, 0x8b44f7af, 0xffff5bb1, 0x895cd7be,
    0x6b901122, 0xfd987193, 0xa679438e, 0x49b40821,
    0xf61e2562, 0xc040b340, 0x265e5a51, 0xe9b6c7aa,
    0xd62f105d, 0x02441453, 0xd8a1e681, 0xe7d3fbc8,
    0x21e1cde6, 0xc33707d6, 0xf4d50d87, 0x455a14ed,
    0xa9e3e905, 0xfcefa3f8, 0x676f02d9, 0x8d2a4c8a,
    0xfffa3942, 0x8771f681, 0x6d9d6122, 0xfde5380c,
    0xa4beea44, 0x4bdecfa9, 0xf6bb4b60, 0xbebfbc70,
    0x289b7ec6, 0xeaa127fa, 0xd4ef3085, 0x04881d05,
    0xd9d4d039, 0xe6db99e5, 0x1fa27cf8, 0xc4ac5665,
    0xf4292244, 0x432aff97, 0xab9423a7, 0xfc93a039,
    0x655b59c3, 0x8f0ccc92, 0xffeff47d, 0x85845dd1,
    0x6fa87e4f, 0xfe2ce6e0, 0xa3014314, 0x4e0811a1,
    0xf7537e82, 0xbd3af235, 0x2ad7d2bb, 0xeb86d391 ]

/-- The per-round left-rotation amounts of MD5. -/
def md5S : List Nat :=
  [ 7, 12, 17, 22, 7, 12, 17, 22, 7, 12, 17, 22, 7, 12, 17, 22,
    5, 9, 14, 20, 5, 9, 14, 20, 5, 9, 14, 20, 5, 9, 14, 20,
    4, 11, 16, 23, 4, 11, 16, 23, 4, 11, 16, 23, 4, 11, 16, 23,
    6, 10, 15, 21, 6, 10, 15, 21, 6, 10, 15, 21, 6, 10, 15, 21 ]

/-- One MD5 round: `i` is the round number, `Mw` the 16 message words of the
current block, and the state is the `(A, B, C, D)` word quadruple. -/
def md5Round (Mw : List Nat) (st : Nat × Nat × Nat × Nat) (i : Nat) :
    Nat × Nat × Nat × Nat :=
  let a := st.1
  let b := st.2.1
  let c := st.2.2.1
  let d := st.2.2.2
  let fg : Nat × Nat :=
    if i < 16 then ((b &&& c) ||| (not32 b &&& d), i)
    else if i < 32 then ((d &&& b) ||| (not32 d &&& c), (5 * i + 1) % 16)
    else if i < 48 then (b ^^^ c ^^^ d, (3 * i + 5) % 16)
    else (c ^^^ (b ||| not32 d), (7 * i) % 16)
  let f := (fg.1 + a + md5K.getD i 0 + Mw.getD fg.2 0) % M32
  (d, (b + rotl32 f (md5S.getD i 0)) % M32, b, c)

/-- Process one 64-byte block (given as its 16 little-endian words). -/
def md5Block (st : Nat × Nat × Nat × Nat) (Mw : List Nat) :
    Nat × Nat × Nat × Nat :=
  let r := (List.range 64).foldl (md5Round Mw) st
  ((st.1 + r.1) % M32, (st.2.1 + r.2.1) % M32,
   (st.2.2.1 + r.2.2.1) % M32, (st.2.2.2 + r.2.2.2) % M32)

/-- The `count` little-endian bytes of `n`. -/
def leBytes (n count : Nat) : List Nat :=
  (List.range count).map (fun i => (n / 2 ^ (8 * i)) % 256)

/-- MD5 padding: append `0x80`, zero-fill to 56 mod 64, then the 64-bit
little-endian bit length. -/
def md5Pad (msg : List Nat) : List Nat :=
  msg ++ [ 0x80] ++ List.replicate ((119 - msg.length % 64) % 64) 0
      ++ leBytes ((8 * msg.length) % 2 ^ 64) 8

/-- Split a list into consecutive 64-element chunks (`n` = chunk count). -/
def chunks64Go : Nat → List Nat → List (List Nat)
  | 0, _ => []
  | n + 1, l => l.take 64 :: chunks64Go n (l.drop 64)

/-- The 64-byte chunks of a padded message. -/
def chunks64 (l : List Nat) : List (List Nat) := chunks64Go (l.length / 64) l

/-- The 16 little-endian 32-bit words of a 64-byte chunk. -/
def wordsOf (c : List Nat) : List Nat :=
  (List.range 16).map (fun j =>
    c.getD (4 * j) 0 + 256 * c.getD (4 * j + 1) 0
      + 65536 * c.getD (4 * j + 2) 0 + 16777216 * c.getD (4 * j + 3) 0)

/-- The MD5 initial state. -/
def md5Init : Nat × Nat × Nat × Nat :=
  (0x67452301, 0xefcdab89, 0x98badcfe, 0x10325476)

/-- The 16-byte MD5 digest of a byte string. -/
def md5Digest (msg : List Nat) : List Nat :=
  let r := ((chunks64 (md5Pad msg)).map wordsOf).foldl md5Block md5Init
  leBytes r.1 4 ++ leBytes r.2.1 4 ++ leBytes r.2.2.1 4 ++ leBytes r.2.2.2 4

/-- The lowercase hexadecimal digit for `n < 16`. -/
def hexChar (n : Nat) : Char :=
  if n < 10 then Char.ofNat (48 + n) else Char.ofNat (87 + n)

/-- `hashlib.md5(bytes).hexdigest()`: the 32-character lowercase hex digest. -/
def hexdigest (msg : List Nat) : Str :=
  (md5Digest msg).flatMap (fun b => [ hexChar (b / 16), hexChar (b % 16)])

/-- UTF-8 encoding of one character (Python `str.encode()` is UTF-8). -/
def utf8Char (c : Char) : List Nat :=
  let n := c.toNat
  if n < 128 then [ n]
  else if n < 2048 then [ 192 ||| (n >>> 6), 128 ||| (n &&& 63)]
  else if n < 65536 then
    [ 224 ||| (n >>> 12), 128 ||| ((n >>> 6) &&& 63), 128 ||| (n &&& 63)]
  else
    [ 240 ||| (n >>> 18), 128 ||| ((n >>> 12) &&& 63),
      128 ||| ((n >>> 6) &&& 63), 128 ||| (n &&& 63)]

/-- UTF-8 encoding of a string (Python `str.encode()`). -/
def utf8Bytes (s : Str) : List Nat := s.flatMap utf8Char

/-- `get_safe_filename(title, max_length=100)` from the script: sanitize the
title, return it unchanged when short enough, otherwise keep the first and
last `(max_length - 8 - 3) // 2` characters around `"..."` and append `-`
plus the first 8 hex characters of the MD5 of the full sanitized title.
(The script only ever calls it with the default `max_length = 100`; the
`h = 0` guard reproduces Python's `title[-0:]` returning the whole string,
which is unreachable at that call site.) -/
def get_safe_filename (title : Str) (max_length : Nat := 100) : Str :=
  let t := sanitizeTitle title
  if t.length ≤ max_length then t
  else
    let title_hash := (hexdigest (utf8Bytes t)).take 8
    let half_length := (max_length - title_hash.length - 3) / 2
    let tailPart := if half_length = 0 then t else t.drop (t.length - half_length)
    (t.take half_length ++ "...".toList ++ tailPart) ++ ('-' :: title_hash)

/-! ### The parse loop

`for i, line in enumerate(lines)` with the mutable variables `tag`,
`tags`, `title`, `note_rows`, `note_dfs`.  Reading one of `tag`, `tags`,
`title` before its first assignment is a Python `NameError`, modelled by
keeping them as `Option`s in the state and returning an error when a
`none` is read. -/

/-- One row of a note data frame: `[tags, title, level - 1, text]`. -/
structure Row where
  tags : List Str
  title : Str
  level : Nat
  text : Str
deriving DecidableEq, Repr

/-- The uncaught Python exceptions the script can die with after the
input file has been found. -/
inductive PyError where
  /-- Reading a variable before its first assignment. -/
  | nameError : String → PyError
  /-- `pd.concat` of an empty list raises `ValueError`. -/
  | emptyConcat : PyError
deriving DecidableEq, Repr

/-- The mutable variables of the parse loop. -/
structure ParseState where
  tag : Option Str
  tagsVar : Option (List Str)
  titleVar : Option Str
  noteRows : List Row
  noteDfs : List (List Row)
deriving DecidableEq, Repr

/-- `level = int((len(line) - len(line.lstrip(' '))) / 2)`. -/
def lineLevel (line : Str) : Nat :=
  (line.length - (line.dropWhile (fun c => c = ' ')).length) / 2

/-- `text = line.strip()[2:]`. -/
def lineText (line : Str) : Str := (pyStrip line).drop 2

/-- `tag = text.replace(' ', '-').replace('/', '-').lower()`. -/
def tagOf (text : Str) : Str :=
  (replaceChar '/' '-' (replaceChar ' ' '-' text)).map Char.toLower

/-- Python `text.split(' #')`: split on the two-character separator,
left to right, non-overlapping; the empty string yields `[""]`. -/
def splitHashSep : Str → List Str
  | [] => [ []]
  | ' ' :: '#' :: rest => [] :: splitHashSep rest
  | c :: rest =>
    match splitHashSep rest with
    | [] => [ [ c]]
    | h :: t => (c :: h) :: t

/-- Lines 69–74 of the script: `if '#' in text: title, *tags =
text.split(' #')` / `else: tags = []; title = text`. -/
def splitTitleTags (text : Str) : Str × List Str :=
  if text.contains '#' then
    match splitHashSep text with
    | [] => ([], [])   -- unreachable: `splitHashSep` never returns `[]`
    | t :: ts => (t, ts)
  else (text, [])

/-- The synthesized first tag `'workflowy-import'`. -/
def workflowyImportTag : Str := "workflowy-import".toList

/-- The body of the parse loop for the line at index `i`. -/
def processLine (i : Nat) (line : Str) (st : ParseState) :
    Except PyError ParseState :=
  let level := lineLevel line
  let text := lineText line
  if level = 0 then
    Except.ok { st with tag := some (tagOf text) }
  else if level = 1 then
    -- `if i > 1:` seal the accumulated rows as a completed note data frame
    let noteDfs := if 1 < i then st.noteDfs ++ [ st.noteRows] else st.noteDfs
    let tt := splitTitleTags text
    let title := sanitizeTitle tt.1
    match st.tag with
    | none => Except.error (PyError.nameError "tag")
    | some tg =>
      Except.ok { tag := some tg,
                  tagsVar := some ((workflowyImportTag :: tg :: tt.2).map pyStrip),
                  titleVar := some title,
                  noteRows := [],
                  noteDfs := noteDfs }
  else
    match st.tagsVar, st.titleVar with
    | none, _ => Except.error (PyError.nameError "tags")
    | some _, none => Except.error (PyError.nameError "title")
    | some tgs, some ti =>
      Except.ok { st with noteRows :=
        st.noteRows ++ [ { tags := tgs, title := ti, level := level - 1, text := text }] }

/-- Run the parse loop from line index `i` in state `st`. -/
def parseGo : Nat → ParseState → List Str → Except PyError ParseState
  | _, st, [] => Except.ok st
  | i, st, l :: rest =>
    match processLine i l st with
    | Except.ok st2 => parseGo (i + 1) st2 rest
    | Except.error e => Except.error e

/-- The state before the loop: no variable assigned, `note_rows = []`,
`note_dfs = []`. -/
def initState : ParseState :=
  { tag := none, tagsVar := none, titleVar := none, noteRows := [], noteDfs := [] }

/-- The whole parse stage.  Note that the rows still accumulating in
`note_rows` when the input ends are never sealed into `note_dfs`. -/
def parseLines (lines : List Str) : Except PyError ParseState :=
  parseGo 0 initState lines

/-- `pd.concat(note_dfs, ignore_index=True)`: raises on an empty list,
otherwise concatenates the per-note row lists. -/
def concatDfs (dfs : List (List Row)) : Except PyError (List Row) :=
  if dfs = [] then Except.error PyError.emptyConcat else Except.ok dfs.flatten

/-! ### The level-to-format table and row rendering -/

/-- `LEVEL_TO_FORMAT_MAP` from the script: outer key = max level of the
note, inner key = row level, value = `(prefix, suffix)` pair. -/
def LEVEL_TO_FORMAT_MAP : List (Nat × List (Nat × (Str × Str))) :=
  [ (1, [ (1, ([], []))]),
    (2, [ (1, ("\n# ".toList, "\n".toList)), (2, ([], []))]),
    (3, [ (1, ("\n# ".toList, "\n".toList)), (2, ("\n## ".toList, "\n".toList)),
          (3, ([], []))]),
    (4, [ (1, ("\n# ".toList, "\n".toList)), (2, ("\n## ".toList, "\n".toList)),
          (3, ([], [])), (4, ("* ".toList, []))]),
    (5, [ (1, ("\n# ".toList, "\n".toList)), (2, ("\n## ".toList, "\n".toList)),
          (3, ([], [])), (4, ("* ".toList, [])), (5, ("\t* ".toList, []))]),
    (6, [ (1, ("\n# ".toList, "\n".toList)), (2, ("\n## ".toList, "\n".toList)),
          (3, ("\n### ".toList, "\n".toList)), (4, ([], [])),
          (5, ("* ".toList, [])), (6, ("\t* ".toList, []))]),
    (7, [ (1, ("\n# ".toList, "\n".toList)), (2, ("\n## ".toList, "\n".toList)),
          (3, ("\n### ".toList, "\n".toList)), (4, ([], [])),
          (5, ("* ".toList, [])), (6, ("\t* ".toList, [])),
          (7, ("\t\t* ".toList, []))]),
    (8, [ (1, ("\n# ".toList, "\n".toList)), (2, ("\n## ".toList, "\n".toList)),
          (3, ("\n### ".toList, "\n".toList)), (4, ([], [])),
          (5, ("* ".toList, [])), (6, ("\t* ".toList, [])),
          (7, ("\t\t* ".toList, [])), (8, ("\t\t\t* ".toList, []))]),
    (9, [ (1, ("\n# ".toList, "\n".toList)), (2, ("\n## ".toList, "\n".toList)),
          (3, ("\n### ".toList, "\n".toList)), (4, ([], [])),
          (5, ("* ".toList, [])), (6, ("\t* ".toList, [])),
          (7, ("\t\t* ".toList, [])), (8, ("\t\t\t* ".toList, [])),
          (9, ("\t\t\t\t* ".toList, []))]),
    (10, [ (1, ("\n# ".toList, "\n".toList)), (2, ("\n## ".toList, "\n".toList)),
           (3, ("\n### ".toList, "\n".toList)), (4, ([], [])),
           (5, ("* ".toList, [])), (6, ("\t* ".toList, [])),
           (7, ("\t\t* ".toList, [])), (8, ("\t\t\t* ".toList, [])),
           (9, ("\t\t\t\t* ".toList, [])), (10, ("\t\t\t\t\t* ".toList, []))])]

/-- Lookup in an integer-keyed association list (Python dict membership
and indexing for the literal dicts above). -/
def lookupNat {α : Type} (k : Nat) : List (Nat × α) → Option α
  | [] => none
  | p :: rest => if k = p.1 then some p.2 else lookupNat k rest

/-- `get_format_for_level(max_level, current_level)` from the script.
The first component is the returned `(prefix, suffix)` pair; the second
records the level number added to the `unmapped_levels` set by this call
(`none` when the lookup succeeds). -/
def get_format_for_level (max_level current_level : Nat) :
    (Str × Str) × Option Nat :=
  if max_level < current_level then (([], []), some current_level)
  else
    match lookupNat max_level LEVEL_TO_FORMAT_MAP with
    | none => (([], []), some max_level)
    | some inner =>
      match lookupNat current_level inner with
      | none => (([], []), some current_level)
      | some p => (p, none)

/-! ### The data-frame pipeline -/

/-- A fully processed row of the final data frame `df`. -/
structure ORow where
  tags : List Str
  titleOut : Str
  level : Nat
  text : Str
  maxLevel : Nat
  pre : Str
  suf : Str
  output : Str
  recorded : Option Nat
deriving DecidableEq, Repr

/-- `.loc[lambda x: x.Text.str.len() > 0]`: drop empty-text rows. -/
def keptRows (rows : List Row) : List Row :=
  rows.filter (fun r => decide (0 < r.text.length))

/-- `x.groupby('Title').Level.transform('max')`: the maximum `Level`
among the rows whose `Title` equals `t`. -/
def maxLevelFor (rows : List Row) (t : Str) : Nat :=
  ((rows.filter (fun r => decide (r.title = t))).map (fun r => r.level)).foldl max 0

/-- The per-row transformations of the `df` pipeline: `MaxLevel`,
`Prefix`, `Suffix`, `Output`, and the final `/ → -` title replacement. -/
def processRow (kept : List Row) (r : Row) : ORow :=
  let m := maxLevelFor kept r.title
  let f := get_format_for_level m r.level
  { tags := r.tags, titleOut := replaceChar '/' '-' r.title, level := r.level,
    text := r.text, maxLevel := m, pre := f.1.1, suf := f.1.2,
    output := f.1.1 ++ r.text ++ f.1.2, recorded := f.2 }

/-- The final data frame `df`: empty rows dropped, then every remaining
row processed against the whole (filtered) corpus. -/
def processRows (rows : List Row) : List ORow :=
  (keptRows rows).map (processRow (keptRows rows))

/-- The level numbers added to `unmapped_levels` while building `df`,
in row order (the Python set deduplicates them). -/
def unmappedOf (rows : List Row) : List Nat :=
  (processRows rows).filterMap (fun o => o.recorded)

/-! ### Export -/

/-- Keep the first occurrence of every element (set-like deduplication
preserving first-seen order). -/
def dedupFirst {α : Type} [DecidableEq α] : List α → List α
  | [] => []
  | x :: xs => x :: (dedupFirst xs).filter (fun y => decide (¬ y = x))

/-- Insert into a `le`-sorted list. -/
def insertLe {α : Type} (le : α → α → Bool) (x : α) : List α → List α
  | [] => [ x]
  | y :: ys => if le x y then x :: y :: ys else y :: insertLe le x ys

/-- Insertion sort by a boolean `le`. -/
def sortLe {α : Type} (le : α → α → Bool) : List α → List α
  | [] => []
  | x :: xs => insertLe le x (sortLe le xs)

/-- Python string comparison: lexicographic on code points. -/
def lexLe : Str → Str → Bool
  | [], _ => true
  | _ :: _, [] => false
  | a :: as, b :: bs => if a = b then lexLe as bs else decide (a.toNat < b.toNat)

/-- `≤` on `Nat` as a boolean (for `sorted` on the unmapped set). -/
def natLeB (a b : Nat) : Bool := decide (a ≤ b)

/-- Python `sep.join(items)`. -/
def joinSep (sep : Str) : List Str → Str
  | [] => []
  | x :: xs => x ++ (xs.map (fun y => sep ++ y)).flatten

/-- The group keys of `df.groupby('Title')`: the distinct titles in
sorted order (pandas sorts group keys). -/
def exportTitles (ors : List ORow) : List Str :=
  sortLe lexLe (dedupFirst (ors.map (fun o => o.titleOut)))

/-- The rows of the group with title `t`, in original frame order
(pandas grouping is stable). -/
def groupRows (ors : List ORow) (t : Str) : List ORow :=
  ors.filter (fun o => decide (o.titleOut = t))

/-- The text written for one title group: the tag header built from the
`Tags` of the group's first row, then the newline-joined `Output`s. -/
def fileContent (g : List ORow) : Str :=
  (match g with
   | [] => [ '#']   -- unreachable: export groups are nonempty
   | o :: _ => '#' :: joinSep " #".toList o.tags)
  ++ ('\n' :: joinSep "\n".toList (g.map (fun o => o.output)))

/-- The export loop: one `(filename, content)` pair per distinct title. -/
def exportFiles (rows : List Row) : List (Str × Str) :=
  (exportTitles (processRows rows)).map (fun t =>
    (get_safe_filename t ++ ".md".toList,
     fileContent (groupRows (processRows rows) t)))

/-- The observable outcome of a successful run. -/
structure RunResult where
  files : List (Str × Str)
  exported : Nat
  warning : Option (List Nat)
deriving DecidableEq, Repr

/-- The whole program after the input file has been read: parse, concat,
process, export, report.  `exported` is `len(df.Title.unique())` and
`warning` is the final consolidated unmapped-levels report (`none` when
the set stayed empty). -/
def runProgram (lines : List Str) : Except PyError RunResult :=
  match parseLines lines with
  | Except.error e => Except.error e
  | Except.ok st =>
    match concatDfs st.noteDfs with
    | Except.error e => Except.error e
    | Except.ok rows =>
      let u := dedupFirst (unmappedOf rows)
      Except.ok { files := exportFiles rows,
                  exported := (dedupFirst ((processRows rows).map (fun o => o.titleOut))).length,
                  warning := if u = [] then none else some (sortLe natLeB u) }

/-! ### Claim-side definitions and concrete inputs -/

/-- The `tag` variable left by the parse stage, when it succeeds. -/
def parsedTag (lines : List Str) : Option (Option Str) :=
  match parseLines lines with
  | Except.ok st => some st.tag
  | Except.error _ => none

/-- The `note_dfs` list left by the parse stage, when it succeeds. -/
def parsedDfs (lines : List Str) : Option (List (List Row)) :=
  match parseLines lines with
  | Except.ok st => some st.noteDfs
  | Except.error _ => none

/-- Number of positions of `s` at which `pat` occurs as a prefix of the
remaining suffix ("contains `pat` exactly once" means this count is 1). -/
def countOcc (pat s : Str) : Nat :=
  ((List.range (s.length + 1)).filter (fun i => decide (pat <+: s.drop i))).length

/-- Modelled from the spec's words for the title/tag split: the portion
of the text before the first occurrence of the `" #"` separator (the
whole text when the separator does not occur). -/
def specTitle (text : Str) : Str := (splitHashSep text).headD []

/-- Modelled from the spec's words for the title/tag split: the tokens
after the first `" #"` separator, themselves `" #"`-delimited. -/
def specInlineTags (text : Str) : List Str := (splitHashSep text).tail

/-- The sixteen lowercase hexadecimal digits. -/
def hexCharsList : Str := "0123456789abcdef".toList

/-- The entry of the fixed two-level table at `(max_level, current_level)`;
`none` means the combination is outside the table. -/
def tableEntry (max_level current_level : Nat) : Option (Str × Str) :=
  match lookupNat max_level LEVEL_TO_FORMAT_MAP with
  | none => none
  | some inner => lookupNat current_level inner

/-- The first parsed row of `mergedTitleRows` (first note for title `M`). -/
def rowMa : Row :=
  { tags := [ "workflowy-import".toList, "x".toList], title := "M".toList,
    level := 1, text := "a".toList }

/-- A single note-title group with rows at relative levels `[1, 2, 3, 2]`
(the spec's MaxLevel-3 rendering example). -/
def exampleRows1232 : List Row :=
  [ { tags := [ "workflowy-import".toList], title := "N".toList, level := 1, text := "t1".toList },
    { tags := [ "workflowy-import".toList], title := "N".toList, level := 2, text := "t2".toList },
    { tags := [ "workflowy-import".toList], title := "N".toList, level := 3, text := "t3".toList },
    { tags := [ "workflowy-import".toList], title := "N".toList, level := 2, text := "t4".toList } ]

/-- Two parsed notes sharing the title `M` under different tag-contexts
(`x` and `y`): one row at level 1 from the first, rows at levels 1 and 2
from the second. -/
def mergedTitleRows : List Row :=
  [ rowMa,
    { tags := [ "workflowy-import".toList, "y".toList], title := "M".toList,
      level := 1, text := "b".toList },
    { tags := [ "workflowy-import".toList, "y".toList], title := "M".toList,
      level := 2, text := "c".toList } ]

/-- The four-line end-to-end input of the spec (claim C1): top line
`'Work'`, the non-top lines indented by two spaces per level and starting
with the two-character bullet marker `'- '`. -/
def c1Lines : List Str :=
  [ "Work".toList,
    "  - Project A #urgent".toList,
    "    - Step one".toList,
    "      - Detail x".toList ]

/-- A two-note input: tag line, note `A` with one row `x`, note `B` with
one row `y` (note `B` is still open when the input ends). -/
def twoNoteLines : List Str :=
  [ "- Tag".toList,
    "  - A".toList,
    "    - x".toList,
    "  - B".toList,
    "    - y".toList ]

/-- The single sealed data-frame row produced by `twoNoteLines`. -/
def rowAx : Row :=
  { tags := [ "workflowy-import".toList, "tag".toList],
    title := "A".toList, level := 1, text := "x".toList }

/-- An input whose note `Deep` has rows at relative levels 1 through 11
(the trailing `End` note seals it and is itself dropped at end of input). -/
def deepLines : List Str :=
  [ "- T".toList,
    "  - Deep".toList,
    "    - a1".toList,
    "      - a2".toList,
    "        - a3".toList,
    "          - a4".toList,
    "            - a5".toList,
    "              - a6".toList,
    "                - a7".toList,
    "                  - a8".toList,
    "                    - a9".toList,
    "                      - a10".toList,
    "                        - a11".toList,
    "  - End".toList ]

/-- Known-answer check: MD5 of the empty string. -/
theorem md5_empty_vector :
    hexdigest [] = "d41d8cd98f00b204e9800998ecf8427e".toList := by
  decide

/-- Known-answer check: MD5 of `"abc"`. -/
theorem md5_abc_vector :
    hexdigest (utf8Bytes "abc".toList)
      = "900150983cd24fb0d6963f7d28e17f72".toList := by
  decide

/-- C1: on the spec's four-line end-to-end input the program does not
write the claimed output file at all: the only note of the input is never
sealed into `note_dfs` (nothing follows its last row), so `pd.concat`
receives an empty list and the run aborts; moreover the depth-0 line
`'Work'` loses its first two characters to the bullet-marker strip, so
the tag-context is `"rk"`, not the claimed `"work"`. -/
theorem C1_end_to_end_aborts :
    runProgram c1Lines = Except.error PyError.emptyConcat ∧
    parsedTag c1Lines = some (some "rk".toList) ∧
    parsedDfs c1Lines = some [] := by
  refine ⟨by rfl, by decide, by decide⟩

/-- C2: the note still open when the input ends is NOT part of the
sequence handed to the formatter.  On `twoNoteLines` the depth-1 line
`B` (line index 3) starts a note whose row `y` is never sealed, so the
run exports only note `A`: `note_dfs` holds exactly the one `A` row and
the output contains no file for `B`. -/
theorem C2_last_note_dropped :
    lineLevel (twoNoteLines.getD 3 []) = 1 ∧
    lineText (twoNoteLines.getD 3 []) = "B".toList ∧
    parsedDfs twoNoteLines = some [ [ rowAx]] ∧
    runProgram twoNoteLines =
      Except.ok { files := [ ("A.md".toList, "#workflowy-import #tag\nx".toList)],
                  exported := 1, warning := none } := by
  refine ⟨by decide, by decide, by decide, by rfl⟩

/-- C3 (counterexample): an existing but empty input file also stops the
run before any output is produced — no note is ever sealed, so
`pd.concat` of the empty `note_dfs` raises. -/
theorem C3_counterexample :
    runProgram ([] : List Str) = Except.error PyError.emptyConcat := by
  rfl

/-- C3 (amended): missing input is not the only abort condition; what
holds is that whenever the parse loop finishes without a `NameError` and
has sealed at least one note data frame, the rest of the run (concat,
formatting, export) never aborts. -/
theorem C3_amended_no_abort_after_seal
    (lines : List Str) (dfs : List (List Row))
    (h : parsedDfs lines = some dfs) (hne : dfs ≠ []) :
    ∃ r, runProgram lines = Except.ok r := by
  unfold parsedDfs at h
  unfold runProgram
  rcases hp : parseLines lines with e | st
  · rw [hp] at h; simp at h
  · rw [hp] at h
    simp only [Option.some.injEq] at h
    subst h
    have hc : concatDfs st.noteDfs = Except.ok st.noteDfs.flatten := by
      unfold concatDfs
      rw [if_neg hne]
    simp only [hp, hc]
    exact ⟨_, rfl⟩

/-- C3 (witness): the amended statement applied to the concrete
two-note input, whose parse seals one note. -/
theorem C3_amended_witness :
    ∃ r, runProgram twoNoteLines = Except.ok r :=
  C3_amended_no_abort_after_seal twoNoteLines [ [ rowAx]] (by decide) (by decide)

/-- C6 (counterexample): for the 150-character title made of `'.'`
characters (sanitized form longer than 100), the returned filename does
not contain the string `"..."` exactly once — the kept head and tail
fragments are themselves runs of dots, giving 89 occurrence positions. -/
theorem C6_counterexample :
    countOcc "...".toList (get_safe_filename (List.replicate 150 '.')) ≠ 1 := by
  decide

/-! ### Helper lemmas -/

/-- `splitHashSep` always yields at least one piece. -/
theorem splitHashSep_ne_nil (s : Str) : splitHashSep s ≠ [] := by
  induction s using splitHashSep.induct <;> simp_all [splitHashSep]

/-- Without a `'#'` in the string there is no `" #"` separator, so the
split returns the whole string as its only piece. -/
theorem splitHashSep_no_sep (s : Str) (h : s.contains '#' = false) :
    splitHashSep s = [ s] := by
  induction s using splitHashSep.induct with
  | case1 => simp [splitHashSep]
  | case2 rest ih => simp at h
  | case3 c rest h1 hnil ih => exact absurd hnil (splitHashSep_ne_nil rest)
  | case4 c rest h1 hd tl heq ih =>
    have hc : rest.contains '#' = false := by
      simp only [List.contains_cons, Bool.or_eq_false_iff] at h
      exact h.2
    have h2 := ih hc
    rw [heq] at h2
    obtain ⟨rfl, rfl⟩ : hd = rest ∧ tl = [] := by
      simpa using h2
    rw [splitHashSep]
    · rw [heq]
    · exact h1

/-- Evaluation of the parse-loop body on a depth-1 line when the
tag-context variable has been assigned. -/
theorem processLine_level1 (i : Nat) (line : Str) (st : ParseState) (tg : Str)
    (htag : st.tag = some tg) (hl : lineLevel line = 1) :
    processLine i line st = Except.ok
      { tag := some tg,
        tagsVar := some ((workflowyImportTag :: tg :: (splitTitleTags (lineText line)).2).map pyStrip),
        titleVar := some (sanitizeTitle (splitTitleTags (lineText line)).1),
        noteRows := [],
        noteDfs := if 1 < i then st.noteDfs ++ [ st.noteRows] else st.noteDfs } := by
  simp only [processLine, hl, htag]
  norm_num

/-- Membership is preserved by sorted insertion. -/
theorem mem_insertLe {α : Type} (le : α → α → Bool) (a x : α) (l : List α) :
    x ∈ insertLe le a l ↔ x = a ∨ x ∈ l := by
  induction l with
  | nil => simp [insertLe]
  | cons y ys ih =>
    unfold insertLe
    by_cases h : le a y
    · simp [h]
    · simp [h, ih]
      tauto

/-- Membership is preserved by the insertion sort. -/
theorem mem_sortLe {α : Type} (le : α → α → Bool) (x : α) (l : List α) :
    x ∈ sortLe le l ↔ x ∈ l := by
  induction l with
  | nil => simp [sortLe]
  | cons y ys ih => simp [sortLe, mem_insertLe, ih]

/-- Membership is preserved by first-occurrence deduplication. -/
theorem mem_dedupFirst {α : Type} [DecidableEq α] (x : α) (l : List α) :
    x ∈ dedupFirst l ↔ x ∈ l := by
  induction l with
  | nil => simp [dedupFirst]
  | cons y ys ih =>
    unfold dedupFirst
    simp [List.mem_filter, ih]
    tauto

/-- `leBytes` produces exactly `count` bytes. -/
theorem length_leBytes (n count : Nat) : (leBytes n count).length = count := by
  simp [leBytes]

/-- The MD5 digest is 16 bytes long. -/
theorem md5Digest_length (msg : List Nat) : (md5Digest msg).length = 16 := by
  unfold md5Digest
  simp [leBytes]

/-- Every byte of `leBytes` is below 256. -/
theorem mem_leBytes_lt {n count x : Nat} (h : x ∈ leBytes n count) : x < 256 := by
  unfold leBytes at h
  rw [List.mem_map] at h
  obtain ⟨i, _, rfl⟩ := h
  exact Nat.mod_lt _ (by norm_num)

/-- Every byte of the MD5 digest is below 256. -/
theorem mem_md5Digest_lt {msg : List Nat} {x : Nat} (h : x ∈ md5Digest msg) :
    x < 256 := by
  unfold md5Digest at h
  simp only [List.mem_append] at h
  rcases h with ((h | h) | h) | h <;> exact mem_leBytes_lt h

/-- Turning a byte list into hex pairs doubles the length. -/
theorem hexPairs_length (bs : List Nat) :
    (bs.flatMap (fun b => [ hexChar (b / 16), hexChar (b % 16)])).length
      = 2 * bs.length := by
  induction bs with
  | nil => rfl
  | cons b t ih =>
    simp only [List.flatMap_cons, List.length_append, List.length_cons,
      List.length_nil, ih]
    omega

/-- The hex digest is 32 characters long. -/
theorem hexdigest_length (msg : List Nat) : (hexdigest msg).length = 32 := by
  unfold hexdigest
  rw [hexPairs_length, md5Digest_length]

/-- Every character of the hex digest is a lowercase hex digit. -/
theorem mem_hexdigest_hex {msg : List Nat} {c : Char} (h : c ∈ hexdigest msg) :
    c ∈ hexCharsList := by
  unfold hexdigest at h
  rw [List.mem_flatMap] at h
  obtain ⟨b, hb, hc⟩ := h
  have hblt : b < 256 := mem_md5Digest_lt hb
  have hx : ∀ n < 16, hexChar n ∈ hexCharsList := by decide
  simp only [List.mem_cons, List.not_mem_nil, or_false] at hc
  rcases hc with rfl | rfl
  · exact hx _ (Nat.div_lt_of_lt_mul (by omega))
  · exact hx _ (Nat.mod_lt _ (by norm_num))

/-- Dropping the length of a list of known length from an append. -/
theorem drop_len_append {α : Type} (a b : List α) (n : Nat) (h : a.length = n) :
    (a ++ b).drop n = b := by
  subst h
  exact List.drop_left a b

/-- Taking the length of a list of known length from an append. -/
theorem take_len_append {α : Type} (a b : List α) (n : Nat) (h : a.length = n) :
    (a ++ b).take n = a := by
  subst h
  exact List.take_left a b

/-! ### Remaining claim theorems -/

/-- C5: for every depth-1 text, the code's title/tag branch computes the
portion before the first `" #"` separator as title and the subsequent
`" #"`-delimited tokens as inline tags (the case without `'#'` giving the
whole text and no tags), and the parse step stores the tags
`['workflowy-import', tag-context] ++ inline tags`, each piece stripped of
surrounding whitespace, alongside the sanitized title. -/
theorem C5_title_tag_assembly :
    (∀ text : Str, splitTitleTags text = (specTitle text, specInlineTags text)) ∧
    (∀ (i : Nat) (line : Str) (st : ParseState) (tg : Str),
        st.tag = some tg → lineLevel line = 1 →
        ∃ st2, processLine i line st = Except.ok st2 ∧
          st2.titleVar = some (sanitizeTitle (specTitle (lineText line))) ∧
          st2.tagsVar = some ((workflowyImportTag :: tg :: specInlineTags (lineText line)).map pyStrip)) := by
  have hsplit : ∀ text : Str, splitTitleTags text = (specTitle text, specInlineTags text) := by
    intro text
    unfold splitTitleTags specTitle specInlineTags
    by_cases h : text.contains '#'
    · simp only [h, if_true]
      cases hs : splitHashSep text with
      | nil => exact absurd hs (splitHashSep_ne_nil text)
      | cons t ts => simp [hs]
    · have hf : text.contains '#' = false := by simpa using h
      rw [if_neg h]
      simp [splitHashSep_no_sep text hf]
  refine ⟨hsplit, fun i line st tg htag hl => ?_⟩
  exact ⟨_, processLine_level1 i line st tg htag hl,
    by simp [hsplit (lineText line)], by simp [hsplit (lineText line)]⟩

/-- C5 (witness): the split and tag assembly on the concrete line
`'  - Foo #bar #baz'` under tag-context `work`. -/
theorem C5_witness :
    ∃ st2, processLine 0 "  - Foo #bar #baz".toList
        { tag := some "work".toList, tagsVar := none, titleVar := none,
          noteRows := [], noteDfs := [] } = Except.ok st2 ∧
      st2.titleVar = some (sanitizeTitle (specTitle (lineText "  - Foo #bar #baz".toList))) ∧
      st2.tagsVar = some ((workflowyImportTag :: "work".toList ::
        specInlineTags (lineText "  - Foo #bar #baz".toList)).map pyStrip) :=
  C5_title_tag_assembly.2 0 "  - Foo #bar #baz".toList
    { tag := some "work".toList, tagsVar := none, titleVar := none,
      noteRows := [], noteDfs := [] } "work".toList (by rfl) (by decide)

/-- C7: every `(max_level, current_level)` combination outside the fixed
table makes `get_format_for_level` return empty prefix and suffix and
record the offending level number (the current level when it exceeds the
max level or has no inner entry, the max level when the max level has no
table); and on the concrete input whose note `Deep` reaches relative
level 11 the whole run completes, renders every row of that note
undecorated, and ends with the consolidated sorted warning `[11]`. -/
theorem C7_unmapped_level_handling :
    (∀ max_level current_level : Nat,
        tableEntry max_level current_level = none →
          (get_format_for_level max_level current_level).1 = ([], []) ∧
          (get_format_for_level max_level current_level).2 =
            some (if max_level < current_level then current_level
                  else if lookupNat max_level LEVEL_TO_FORMAT_MAP = none then max_level
                  else current_level)) ∧
    runProgram deepLines = Except.ok
      { files := [ ("Deep.md".toList,
          "#workflowy-import #t\na1\na2\na3\na4\na5\na6\na7\na8\na9\na10\na11".toList)],
        exported := 1,
        warning := some [ 11] } := by
  constructor
  · intro M L h
    unfold get_format_for_level
    by_cases hml : M < L
    · simp [hml]
    · simp only [if_neg hml]
      unfold tableEntry at h
      cases ho : lookupNat M LEVEL_TO_FORMAT_MAP with
      | none => simp [ho, hml]
      | some inner =>
        rw [ho] at h
        simp at h
        simp [h, hml]
  · rfl

/-- C7 (witness): the out-of-table combination `(11, 11)` (a note whose
deepest relative level is 11) resolves to empty decorations and records
the offending level 11. -/
theorem C7_witness :
    (get_format_for_level 11 11).1 = ([], []) ∧
    (get_format_for_level 11 11).2 =
      some (if 11 < 11 then 11
            else if lookupNat 11 LEVEL_TO_FORMAT_MAP = none then 11 else 11) :=
  C7_unmapped_level_handling.1 11 11 (by decide)

/-- C4: every row entering the pipeline is rendered with the
`get_format_for_level` pair selected by the maximum level of its whole
Title group (computed over the filtered corpus, merging notes that share
a title across tag-contexts), never a table for a different max level;
concretely, a MaxLevel-3 group with rows at levels `[1, 2, 3, 2]` renders
as `['\n# t1\n', '\n## t2\n', 't3', '\n## t4\n']`, and in a merged group
of max level 2 the level-1 row of the first note is rendered as an H1
heading rather than with the MaxLevel-1 table. -/
theorem C4_format_by_group_max :
    (∀ (rows : List Row) (r : Row), r ∈ keptRows rows →
        processRow (keptRows rows) r ∈ processRows rows ∧
        (processRow (keptRows rows) r).maxLevel = maxLevelFor (keptRows rows) r.title ∧
        ((processRow (keptRows rows) r).pre, (processRow (keptRows rows) r).suf)
          = (get_format_for_level (maxLevelFor (keptRows rows) r.title) r.level).1) ∧
    (processRows exampleRows1232).map (fun o => o.output) =
      [ "\n# t1\n".toList, "\n## t2\n".toList, "t3".toList, "\n## t4\n".toList] ∧
    (processRows mergedTitleRows).map (fun o => o.output) =
      [ "\n# a\n".toList, "\n# b\n".toList, "c".toList] := by
  refine ⟨fun rows r hr => ⟨List.mem_map_of_mem _ hr, rfl, rfl⟩, by decide, by decide⟩

/-- C4 (witness): the general statement at the first row of the merged
two-note corpus. -/
theorem C4_witness :
    processRow (keptRows mergedTitleRows) rowMa ∈ processRows mergedTitleRows ∧
    (processRow (keptRows mergedTitleRows) rowMa).maxLevel
      = maxLevelFor (keptRows mergedTitleRows) rowMa.title ∧
    ((processRow (keptRows mergedTitleRows) rowMa).pre,
     (processRow (keptRows mergedTitleRows) rowMa).suf)
      = (get_format_for_level (maxLevelFor (keptRows mergedTitleRows) rowMa.title)
          rowMa.level).1 :=
  C4_format_by_group_max.1 mergedTitleRows rowMa (by decide)

/-- C8: every exported file belongs to some title whose (stable) group of
processed rows is nonempty; its name is the safe filename plus `.md`, and
its content is `'#'` followed by the tags of the group's FIRST row joined
by `' #'`, a newline, then the newline-joined outputs of the group's rows
in original frame order.  Concretely, the merged two-note corpus exports
one file whose header carries only the first note's tags (`x`, not `y`). -/
theorem C8_output_file_content :
    (∀ (rows : List Row) (p : Str × Str), p ∈ exportFiles rows →
        ∃ t g0 g, groupRows (processRows rows) t = g0 :: g ∧
          p.1 = get_safe_filename t ++ ".md".toList ∧
          p.2 = ('#' :: joinSep " #".toList g0.tags)
                ++ ('\n' :: joinSep "\n".toList ((g0 :: g).map (fun o => o.output)))) ∧
    exportFiles mergedTitleRows =
      [ ("M.md".toList, "#workflowy-import #x\n\n# a\n\n\n# b\n\nc".toList)] := by
  constructor
  · intro rows p hp
    unfold exportFiles at hp
    rw [List.mem_map] at hp
    obtain ⟨t, ht, rfl⟩ := hp
    unfold exportTitles at ht
    rw [mem_sortLe, mem_dedupFirst, List.mem_map] at ht
    obtain ⟨o, ho, hot⟩ := ht
    have hogm : o ∈ groupRows (processRows rows) t := by
      unfold groupRows
      rw [List.mem_filter]
      exact ⟨ho, by simp [hot]⟩
    cases hg : groupRows (processRows rows) t with
    | nil => rw [hg] at hogm; simp at hogm
    | cons g0 g => exact ⟨t, g0, g, hg, rfl, rfl⟩
  · rfl

/-- C8 (witness): the content characterization at the single exported
file of the merged two-note corpus. -/
theorem C8_witness :
    ∃ t g0 g, groupRows (processRows mergedTitleRows) t = g0 :: g ∧
      (("M.md".toList, "#workflowy-import #x\n\n# a\n\n\n# b\n\nc".toList) : Str × Str).1
        = get_safe_filename t ++ ".md".toList ∧
      (("M.md".toList, "#workflowy-import #x\n\n# a\n\n\n# b\n\nc".toList) : Str × Str).2
        = ('#' :: joinSep " #".toList g0.tags)
          ++ ('\n' :: joinSep "\n".toList ((g0 :: g).map (fun o => o.output))) :=
  C8_output_file_content.1 mergedTitleRows
    ("M.md".toList, "#workflowy-import #x\n\n# a\n\n\n# b\n\nc".toList) (by decide)

/-- C6 (amended): for every title whose sanitized form exceeds 100
characters, `get_safe_filename` returns exactly the first 44 characters,
`"..."`, the last 44 characters, `'-'` and the first 8 hex characters of
the MD5 of the sanitized pre-truncation title; the result has length
exactly 100, shows `"..."` at position 44, and ends in `'-'` followed by
8 lowercase hex digits.  A title whose sanitized form is at most 100
characters is returned as-is after sanitization. -/
theorem C6_amended_truncation :
    (∀ title : Str, 100 < (sanitizeTitle title).length →
        get_safe_filename title
          = ((sanitizeTitle title).take 44 ++ "...".toList
              ++ (sanitizeTitle title).drop ((sanitizeTitle title).length - 44))
            ++ ('-' :: (hexdigest (utf8Bytes (sanitizeTitle title))).take 8) ∧
        (get_safe_filename title).length = 100 ∧
        ((get_safe_filename title).drop 44).take 3 = "...".toList ∧
        ('-' :: (hexdigest (utf8Bytes (sanitizeTitle title))).take 8) <:+ get_safe_filename title ∧
        ((hexdigest (utf8Bytes (sanitizeTitle title))).take 8).length = 8 ∧
        (∀ c ∈ (hexdigest (utf8Bytes (sanitizeTitle title))).take 8, c ∈ hexCharsList)) ∧
    (∀ title : Str, (sanitizeTitle title).length ≤ 100 →
        get_safe_filename title = sanitizeTitle title) := by
  constructor
  · intro title h
    have h32 := hexdigest_length (utf8Bytes (sanitizeTitle title))
    have h8 : ((hexdigest (utf8Bytes (sanitizeTitle title))).take 8).length = 8 := by
      rw [List.length_take, h32]
      decide
    have heq : get_safe_filename title
        = ((sanitizeTitle title).take 44 ++ "...".toList
            ++ (sanitizeTitle title).drop ((sanitizeTitle title).length - 44))
          ++ ('-' :: (hexdigest (utf8Bytes (sanitizeTitle title))).take 8) := by
      simp only [get_safe_filename]
      rw [if_neg (by omega)]
      rw [h8]
      norm_num
    have ht44 : ((sanitizeTitle title).take 44).length = 44 := by
      rw [List.length_take]
      omega
    have hlen : (get_safe_filename title).length = 100 := by
      rw [heq]
      simp only [List.length_append, List.length_take, List.length_drop,
        List.length_cons, h8]
      have : ("...".toList : Str).length = 3 := rfl
      omega
    refine ⟨heq, hlen, ?_, ⟨_, heq.symm⟩, h8, ?_⟩
    · rw [heq, List.append_assoc, List.append_assoc]
      rw [drop_len_append _ _ 44 ht44]
      rw [take_len_append "...".toList _ 3 rfl]
    · intro c hc
      exact mem_hexdigest_hex (List.mem_of_mem_take hc)
  · intro title h
    simp only [get_safe_filename]
    rw [if_pos h]

/-- C6 (amended, witness): the truncation shape on the concrete
150-character title `'a' * 150`, and the short-title branch on the
concrete title `'Report: 2020/Q1'` (sanitized within the limit and so
returned as-is after sanitization). -/
theorem C6_amended_witness :
    (get_safe_filename (List.replicate 150 'a')).length = 100 ∧
    ((get_safe_filename (List.replicate 150 'a')).drop 44).take 3 = "...".toList ∧
    get_safe_filename "Report: 2020/Q1".toList = sanitizeTitle "Report: 2020/Q1".toList :=
  ⟨(C6_amended_truncation.1 (List.replicate 150 'a') (by decide)).2.1,
   (C6_amended_truncation.1 (List.replicate 150 'a') (by decide)).2.2.1,
   C6_amended_truncation.2 "Report: 2020/Q1".toList (by decide)⟩

/-! ### Step-evaluation lemmas for the parse loop -/

/-- A depth-0 line only updates the tag-context. -/
theorem processLine_level0 (i : Nat) (line : Str) (st : ParseState)
    (hl : lineLevel line = 0) :
    processLine i line st
      = Except.ok { st with tag := some (tagOf (lineText line)) } := by
  simp only [processLine, hl]
  norm_num

/-- A depth-1 line with the tag-context still unassigned raises
`NameError` on `tag`. -/
theorem processLine_level1_noTag (i : Nat) (line : Str) (st : ParseState)
    (htag : st.tag = none) (hl : lineLevel line = 1) :
    processLine i line st = Except.error (PyError.nameError "tag") := by
  simp only [processLine, hl, htag]
  norm_num

/-- A depth-≥2 line with the note tags variable still unassigned raises
`NameError` on `tags`. -/
theorem processLine_ge2_noTags (i : Nat) (line : Str) (st : ParseState)
    (htags : st.tagsVar = none) (hl : 2 ≤ lineLevel line) :
    processLine i line st = Except.error (PyError.nameError "tags") := by
  have h0 : ¬ lineLevel line = 0 := by omega
  have h1 : ¬ lineLevel line = 1 := by omega
  simp only [processLine, if_neg h0, if_neg h1, htags]

/-- A depth-≥2 line with tags assigned but the title variable still
unassigned raises `NameError` on `title`. -/
theorem processLine_ge2_noTitle (i : Nat) (line : Str) (st : ParseState)
    (tgs : List Str) (htags : st.tagsVar = some tgs) (htitle : st.titleVar = none)
    (hl : 2 ≤ lineLevel line) :
    processLine i line st = Except.error (PyError.nameError "title") := by
  have h0 : ¬ lineLevel line = 0 := by omega
  have h1 : ¬ lineLevel line = 1 := by omega
  simp only [processLine, if_neg h0, if_neg h1, htags, htitle]

/-- A depth-≥2 line with both note variables assigned appends one body
row at relative level `depth - 1`. -/
theorem processLine_ge2 (i : Nat) (line : Str) (st : ParseState)
    (tgs : List Str) (ti : Str)
    (htags : st.tagsVar = some tgs) (htitle : st.titleVar = some ti)
    (hl : 2 ≤ lineLevel line) :
    processLine i line st = Except.ok { st with noteRows :=
      st.noteRows ++ [ { tags := tgs, title := ti,
                         level := lineLevel line - 1, text := lineText line }] } := by
  have h0 : ¬ lineLevel line = 0 := by omega
  have h1 : ¬ lineLevel line = 1 := by omega
  simp only [processLine, if_neg h0, if_neg h1, htags, htitle]

/-- From a state whose `tags` variable has never been assigned, an input
containing a depth-≥2 line with no depth-1 line before it makes the loop
die with a `NameError`. -/
theorem parseGo_deep_before_note (lines : List Str) : ∀ (i : Nat) (st : ParseState),
    st.tagsVar = none →
    (∃ j, j < lines.length ∧ 2 ≤ lineLevel (lines.getD j []) ∧
      ∀ k, k < j → lineLevel (lines.getD k []) ≠ 1) →
    ∃ v, parseGo i st lines = Except.error (PyError.nameError v) := by
  induction lines with
  | nil =>
    rintro i st htags ⟨j, hj, -, -⟩
    exact absurd hj (by simp)
  | cons l rest ih =>
    rintro i st htags ⟨j, hj, hlev, hbefore⟩
    by_cases hl2 : 2 ≤ lineLevel l
    · exact ⟨"tags", by rw [parseGo, processLine_ge2_noTags i l st htags hl2]⟩
    · have hj0 : j ≠ 0 := by
        intro h0
        subst h0
        rw [List.getD_cons_zero] at hlev
        omega
      obtain ⟨j2, rfl⟩ : ∃ j2, j = j2 + 1 := ⟨j - 1, by omega⟩
      have hl1 : lineLevel l ≠ 1 := by
        have hb := hbefore 0 (by omega)
        rwa [List.getD_cons_zero] at hb
      have hl0 : lineLevel l = 0 := by omega
      rw [parseGo, processLine_level0 i l st hl0]
      exact ih (i + 1) _ htags
        ⟨j2, by simp only [List.length_cons] at hj; omega,
         by rwa [List.getD_cons_succ] at hlev,
         fun k hk => by
           have hb := hbefore (k + 1) (by omega)
           rwa [List.getD_cons_succ] at hb⟩

/-- From the fresh initial state, an input whose first depth-1 line
precedes any depth-0 line, or whose first depth-≥2 line precedes any
depth-1 line, makes the loop die with a `NameError`. -/
theorem parseGo_uninitialized (lines : List Str) : ∀ (i : Nat) (st : ParseState),
    st.tag = none → st.tagsVar = none →
    ((∃ j, j < lines.length ∧ lineLevel (lines.getD j []) = 1 ∧
        ∀ k, k < j → lineLevel (lines.getD k []) ≠ 0) ∨
     (∃ j, j < lines.length ∧ 2 ≤ lineLevel (lines.getD j []) ∧
        ∀ k, k < j → lineLevel (lines.getD k []) ≠ 1)) →
    ∃ v, parseGo i st lines = Except.error (PyError.nameError v) := by
  induction lines with
  | nil =>
    rintro i st htag htags (⟨j, hj, -, -⟩ | ⟨j, hj, -, -⟩) <;> exact absurd hj (by simp)
  | cons l rest ih =>
    rintro i st htag htags hyp
    by_cases hl2 : 2 ≤ lineLevel l
    · exact ⟨"tags", by rw [parseGo, processLine_ge2_noTags i l st htags hl2]⟩
    · by_cases hl1 : lineLevel l = 1
      · exact ⟨"tag", by rw [parseGo, processLine_level1_noTag i l st htag hl1]⟩
      · have hl0 : lineLevel l = 0 := by omega
        rcases hyp with ⟨j, hj, hlev, hbefore⟩ | ⟨j, hj, hlev, hbefore⟩
        · rcases j with - | j2
          · rw [List.getD_cons_zero] at hlev
            omega
          · have hb := hbefore 0 (by omega)
            rw [List.getD_cons_zero] at hb
            exact absurd hl0 hb
        · have hj0 : j ≠ 0 := by
            intro h0
            subst h0
            rw [List.getD_cons_zero] at hlev
            omega
          obtain ⟨j2, rfl⟩ : ∃ j2, j = j2 + 1 := ⟨j - 1, by omega⟩
          rw [parseGo, processLine_level0 i l st hl0]
          exact parseGo_deep_before_note rest (i + 1) _ htags
            ⟨j2, by simp only [List.length_cons] at hj; omega,
             by rwa [List.getD_cons_succ] at hlev,
             fun k hk => by
               have hb := hbefore (k + 1) (by omega)
               rwa [List.getD_cons_succ] at hb⟩

/-- C9: if the input's first depth-1 line occurs before any depth-0 line
(reading the unassigned `tag`), or a depth-≥2 line occurs before any
depth-1 line (reading the unassigned `tags`/`title`), the program
crashes with an uncaught `NameError` even though an input file exists. -/
theorem C9_uninitialized_reads (lines : List Str)
    (hyp : (∃ j, j < lines.length ∧ lineLevel (lines.getD j []) = 1 ∧
              ∀ k, k < j → lineLevel (lines.getD k []) ≠ 0) ∨
           (∃ j, j < lines.length ∧ 2 ≤ lineLevel (lines.getD j []) ∧
              ∀ k, k < j → lineLevel (lines.getD k []) ≠ 1)) :
    ∃ v, runProgram lines = Except.error (PyError.nameError v) := by
  obtain ⟨v, hv⟩ := parseGo_uninitialized lines 0 initState rfl rfl hyp
  refine ⟨v, ?_⟩
  unfold runProgram parseLines
  rw [hv]

/-- C9 (witness): the single-line input `'  - Foo'` (a depth-1 line with
no preceding depth-0 line) aborts with a `NameError`. -/
theorem C9_witness :
    ∃ v, runProgram [ "  - Foo".toList] = Except.error (PyError.nameError v) :=
  C9_uninitialized_reads [ "  - Foo".toList]
    (Or.inl ⟨0, by decide, by decide, fun k hk => absurd hk (Nat.not_lt_zero k)⟩)

/-! ### The level invariant of the pipeline (claim C10) -/

/-- All body rows held by a parse state sit at relative level ≥ 1. -/
def stateLevelsOk (st : ParseState) : Prop :=
  (∀ r ∈ st.noteRows, 1 ≤ r.level) ∧ (∀ df ∈ st.noteDfs, ∀ r ∈ df, 1 ≤ r.level)

/-- One loop step preserves the level invariant. -/
theorem processLine_levels (i : Nat) (l : Str) (st stm : ParseState)
    (hok : stateLevelsOk st) (h : processLine i l st = Except.ok stm) :
    stateLevelsOk stm := by
  by_cases h0 : lineLevel l = 0
  · rw [processLine_level0 i l st h0] at h
    cases h
    exact ⟨hok.1, hok.2⟩
  · by_cases h1 : lineLevel l = 1
    · cases htag : st.tag with
      | none =>
        rw [processLine_level1_noTag i l st htag h1] at h
        cases h
      | some tg =>
        rw [processLine_level1 i l st tg htag h1] at h
        cases h
        constructor
        · intro r hr
          simp at hr
        · intro df hdf r hr
          by_cases hi : 1 < i
          · rw [if_pos hi] at hdf
            rcases List.mem_append.mp hdf with hdf2 | hdf2
            · exact hok.2 df hdf2 r hr
            · have : df = st.noteRows := by simpa using hdf2
              subst this
              exact hok.1 r hr
          · rw [if_neg hi] at hdf
            exact hok.2 df hdf r hr
    · have h2 : 2 ≤ lineLevel l := by omega
      cases htags : st.tagsVar with
      | none =>
        rw [processLine_ge2_noTags i l st htags h2] at h
        cases h
      | some tgs =>
        cases htitle : st.titleVar with
        | none =>
          rw [processLine_ge2_noTitle i l st tgs htags htitle h2] at h
          cases h
        | some ti =>
          rw [processLine_ge2 i l st tgs ti htags htitle h2] at h
          cases h
          refine ⟨?_, hok.2⟩
          intro r hr
          rcases List.mem_append.mp hr with hr2 | hr2
          · exact hok.1 r hr2
          · have : r = { tags := tgs, title := ti,
                         level := lineLevel l - 1, text := lineText l } := by
              simpa using hr2
            subst this
            simp only []
            omega

/-- The whole loop preserves the level invariant. -/
theorem parseGo_levels (lines : List Str) : ∀ (i : Nat) (st st2 : ParseState),
    stateLevelsOk st → parseGo i st lines = Except.ok st2 → stateLevelsOk st2 := by
  induction lines with
  | nil =>
    intro i st st2 hok h
    cases h
    exact hok
  | cons l rest ih =>
    intro i st st2 hok h
    rw [parseGo] at h
    cases hp : processLine i l st with
    | error e =>
      rw [hp] at h
      cases h
    | ok stm =>
      rw [hp] at h
      exact ih (i + 1) stm st2 (processLine_levels i l st stm hok hp) h

/-- Any element of a `foldl max` list is bounded by the fold. -/
theorem le_foldl_max (l : List Nat) : ∀ (a x : Nat), (x ∈ l ∨ x ≤ a) → x ≤ l.foldl max a := by
  induction l with
  | nil =>
    intro a x h
    rcases h with h | h
    · simp at h
    · simpa using h
  | cons y ys ih =>
    intro a x h
    rw [List.foldl_cons]
    rcases h with h | h
    · rcases List.mem_cons.mp h with rfl | h2
      · exact ih _ _ (Or.inr (le_max_right a x))
      · exact ih _ _ (Or.inl h2)
    · exact ih _ _ (Or.inr (le_trans h (le_max_left a y)))

/-- A row's level is bounded by the max level of its title group. -/
theorem le_maxLevelFor (kept : List Row) (r : Row) (h : r ∈ kept) :
    r.level ≤ maxLevelFor kept r.title := by
  unfold maxLevelFor
  apply le_foldl_max
  left
  rw [List.mem_map]
  exact ⟨r, List.mem_filter.mpr ⟨h, by simp⟩, rfl⟩

/-- The lookup fails exactly for max levels above 10. -/
theorem lookup_none_of_gt10 (m : Nat) (hm : 10 < m) :
    lookupNat m LEVEL_TO_FORMAT_MAP = none := by
  have e1 : m ≠ 1 := by omega
  have e2 : m ≠ 2 := by omega
  have e3 : m ≠ 3 := by omega
  have e4 : m ≠ 4 := by omega
  have e5 : m ≠ 5 := by omega
  have e6 : m ≠ 6 := by omega
  have e7 : m ≠ 7 := by omega
  have e8 : m ≠ 8 := by omega
  have e9 : m ≠ 9 := by omega
  have e10 : m ≠ 10 := by omega
  simp [LEVEL_TO_FORMAT_MAP, lookupNat, e1, e2, e3, e4, e5, e6, e7, e8, e9, e10]

/-- For every in-range pair (`1 ≤ L ≤ m ≤ 10`) the table lookup succeeds
and nothing is recorded. -/
theorem table_defined : ∀ m, m < 11 → ∀ L, L < 11 → 1 ≤ L → L ≤ m →
    (get_format_for_level m L).2 = none := by
  decide

/-- The level recorded by `get_format_for_level` when called from the
pipeline (`1 ≤ L ≤ m`): the max level when it exceeds 10, nothing
otherwise. -/
theorem recorded_eq (m L : Nat) (h1 : 1 ≤ L) (hLm : L ≤ m) :
    (get_format_for_level m L).2 = (if 10 < m then some m else none) := by
  by_cases hm : 10 < m
  · rw [if_pos hm]
    unfold get_format_for_level
    rw [if_neg (by omega), lookup_none_of_gt10 m hm]
  · rw [if_neg hm]
    exact table_defined m (by omega) L (by omega) h1 hLm

/-- C10: every row entering the rendering pipeline of a successful run
satisfies level ≤ group max level, so the lookup's first branch never
fires there; what a row records into the unmapped set is exactly its
group's max level, and only when that max level exceeds 10. -/
theorem C10_pipeline_level_invariant (lines : List Str) (st : ParseState)
    (rows : List Row)
    (hp : parseLines lines = Except.ok st)
    (hc : concatDfs st.noteDfs = Except.ok rows) :
    ∀ o ∈ processRows rows,
      o.level ≤ o.maxLevel ∧
      o.recorded = (if 10 < o.maxLevel then some o.maxLevel else none) := by
  have hok : stateLevelsOk st := by
    unfold parseLines at hp
    exact parseGo_levels lines 0 initState st
      ⟨by intro r hr; simp [initState] at hr,
       by intro df hdf; simp [initState] at hdf⟩ hp
  have hrowlev : ∀ r ∈ rows, 1 ≤ r.level := by
    unfold concatDfs at hc
    by_cases hd : st.noteDfs = []
    · rw [if_pos hd] at hc
      cases hc
    · rw [if_neg hd] at hc
      cases hc
      intro r hr
      obtain ⟨df, hdf, hrdf⟩ := List.mem_flatten.mp hr
      exact hok.2 df hdf r hrdf
  intro o ho
  unfold processRows at ho
  rw [List.mem_map] at ho
  obtain ⟨r, hr, rfl⟩ := ho
  have hr1 : 1 ≤ r.level := hrowlev r (List.mem_of_mem_filter hr)
  have hle : r.level ≤ maxLevelFor (keptRows rows) r.title := le_maxLevelFor _ _ hr
  exact ⟨hle, recorded_eq _ _ hr1 hle⟩

/-- C10 (witness): the invariant at the single pipeline row of the
two-note input. -/
theorem C10_witness :
    (processRow (keptRows [ rowAx]) rowAx).level
      ≤ (processRow (keptRows [ rowAx]) rowAx).maxLevel ∧
    (processRow (keptRows [ rowAx]) rowAx).recorded
      = (if 10 < (processRow (keptRows [ rowAx]) rowAx).maxLevel
         then some ((processRow (keptRows [ rowAx]) rowAx).maxLevel) else none) :=
  C10_pipeline_level_invariant twoNoteLines
    { tag := some "tag".toList,
      tagsVar := some [ "workflowy-import".toList, "tag".toList],
      titleVar := some "B".toList,
      noteRows := [ { tags := [ "workflowy-import".toList, "tag".toList],
                      title := "B".toList, level := 1, text := "y".toList }],
      noteDfs := [ [ rowAx]] }
    [ rowAx] (by rfl) (by rfl)
    (processRow (keptRows [ rowAx]) rowAx) (by decide)

end Wf2md
